import Mathlib

/-!
Verification of the tactasports tracking-and-metrics core.

Shallow embedding of the code in:
- `src/python/trackers/hybrid_tracker.py` (Track, HybridTracker)
- `src/python/soccer_analysis_core.py` (HomographyTransform, XThreatGrid, AnalysisConfig)
- `src/python/soccer_analysis_processor.py` (velocity computation, pass validation,
  pressing-event deduplication)

Python floats are modelled as exact rationals (`ℚ`) where the code only uses
field operations and comparisons, and as reals (`ℝ`) where the code takes
square roots (Euclidean distances, Kalman box decoding).
-/

namespace Tactasports

/-! ## Track (hybrid_tracker.py, class Track)

Only the fields read by the lifecycle logic are modelled; the Kalman filter
state is modelled separately (`update_kf_encode` / `get_box_decode`) since the
lifecycle code never reads it. Appearance features are abstracted to an
arbitrary type `α`. -/

structure Track (α : Type) where
  track_id : ℕ
  box : ℚ × ℚ × ℚ × ℚ
  score : ℚ
  features : List α
  max_features : ℕ
  hits : ℕ
  age : ℕ
  time_since_update : ℕ
  deriving DecidableEq, Repr

/-- `Track.__init__` (hybrid_tracker.py lines 13-22): features seeded with the
optional detection feature, `max_features = 100`, `hits = 1`, `age = 1`,
`time_since_update = 0`. -/
def Track.init (track_id : ℕ) (box : ℚ × ℚ × ℚ × ℚ) (score : ℚ)
    (feature : Option α) : Track α :=
  { track_id := track_id
    box := box
    score := score
    features := match feature with
      | some f => [f]
      | none => []
    max_features := 100
    hits := 1
    age := 1
    time_since_update := 0 }

/-- `Track.predict` (lines 57-63): Kalman predict aside, it increments `age`
and `time_since_update`. -/
def Track.predict (t : Track α) : Track α :=
  { t with age := t.age + 1, time_since_update := t.time_since_update + 1 }

/-- `Track.update` (lines 65-84): increments `hits`, resets
`time_since_update`, stores the new `box`/`score`, and if a feature is given
appends it to `features`, popping the front element when the buffer exceeds
`max_features`. -/
def Track.update (t : Track α) (box : ℚ × ℚ × ℚ × ℚ) (score : ℚ)
    (feature : Option α) : Track α :=
  let t' := { t with hits := t.hits + 1, time_since_update := 0,
                     score := score, box := box }
  match feature with
  | none => t'
  | some f =>
    let fs := t.features ++ [f]
    { t' with features := if t.max_features < fs.length then fs.tail else fs }

/-- One externally triggered operation on a `Track` after construction. -/
inductive TrackOp (α : Type) where
  | predict : TrackOp α
  | update (box : ℚ × ℚ × ℚ × ℚ) (score : ℚ) (feature : Option α) : TrackOp α

def Track.applyOp (t : Track α) : TrackOp α → Track α
  | .predict => t.predict
  | .update box score feature => t.update box score feature

def Track.applyOps (t : Track α) (ops : List (TrackOp α)) : Track α :=
  ops.foldl Track.applyOp t

/-! ## HybridTracker lifecycle steps (hybrid_tracker.py, class HybridTracker) -/

namespace HybridTracker

/-- `HybridTracker.__init__` line 106: `self.max_age = frame_rate * 2`. -/
def max_age (frame_rate : ℕ) : ℕ := frame_rate * 2

/-- The dead-track removal step of `HybridTracker.update` (line 209):
`self.tracks = [t for t in self.tracks if t.time_since_update < self.max_age]`. -/
def removeDead (tracks : List (Track α)) (max_age : ℕ) : List (Track α) :=
  tracks.filter (fun t => decide (t.time_since_update < max_age))

/-- The output-gating step of `HybridTracker.update` (lines 211-218): a track
contributes a result row exactly when
`t.time_since_update < 1 and t.hits >= 3`. We return the gated tracks
themselves; the code then emits `[*box, id, score, 0]` per gated track. -/
def activeResults (tracks : List (Track α)) : List (Track α) :=
  tracks.filter (fun t => decide (t.time_since_update < 1 ∧ 3 ≤ t.hits))

end HybridTracker

/-! ## Kalman box encoding (hybrid_tracker.py, Track.update_kf / Track.get_box)

Exact-real model of the box ↔ (cx, cy, scale, ratio) conversion. -/

/-- The `[x1,y1,x2,y2] → [cx,cy,s,r]` conversion in `Track.update_kf`
(lines 46-55): `w = x2-x1`, `h = y2-y1`, `x = x1+w/2`, `y = y1+h/2`,
`s = w*h`, `r = w/h`. -/
noncomputable def update_kf_encode (b : ℝ × ℝ × ℝ × ℝ) : ℝ × ℝ × ℝ × ℝ :=
  let w := b.2.2.1 - b.1
  let h := b.2.2.2 - b.2.1
  (b.1 + w / 2, b.2.1 + h / 2, w * h, w / h)

/-- The `[cx,cy,s,r] → [x1,y1,x2,y2]` conversion in `Track.get_box`
(lines 86-98): `w = sqrt(s*r)`, `h = s/w`, box `[x-w/2, y-h/2, x+w/2, y+h/2]`. -/
noncomputable def get_box_decode (z : ℝ × ℝ × ℝ × ℝ) : ℝ × ℝ × ℝ × ℝ :=
  let w := Real.sqrt (z.2.2.1 * z.2.2.2)
  let h := z.2.2.1 / w
  (z.1 - w / 2, z.2.1 - h / 2, z.1 + w / 2, z.2.1 + h / 2)

/-! ## HomographyTransform (soccer_analysis_core.py lines 220-266)

Matrix entries are exact rationals; a 3×3 matrix is a function
`Fin 3 → Fin 3 → ℚ`. `matrix = none` is the `self.matrix is None` /
`self.enabled = False` state. -/

structure HomographyTransform where
  matrix : Option (Fin 3 → Fin 3 → ℚ)

namespace HomographyTransform

/-- `self.enabled = matrix is not None`. -/
def enabled (t : HomographyTransform) : Bool := t.matrix.isSome

/-- `_validate_matrix` (lines 230-235): in the typed model the shape is 3×3
by construction; the remaining check is `np.allclose(self.matrix, 0)`, which
with numpy defaults (`atol = 1e-8`, reference 0) holds exactly when every
entry has absolute value at most `1e-8`. `degenerate m` is the raising case. -/
def degenerate (m : Fin 3 → Fin 3 → ℚ) : Prop :=
  ∀ i j, |m i j| ≤ 1 / 10 ^ 8

instance (m : Fin 3 → Fin 3 → ℚ) : Decidable (degenerate m) := by
  unfold degenerate
  infer_instance

/-- Rebuild the 3×3 matrix from the 9 parsed values, row-major
(`np.array(values).reshape(3, 3)`). -/
def reshape3x3 (values : List ℚ) : Fin 3 → Fin 3 → ℚ :=
  fun i j => values.getD (3 * i.val + j.val) 0

/-- The body of `from_string` (lines 237-248) given the outcome of the
parsing step `[float(x.strip()) for x in matrix_str.split(',')]`: `none`
when some token made `float()` raise, `some values` otherwise. A value count
other than 9, or `_validate_matrix` raising inside the `cls(matrix)` call,
is caught by the surrounding `try` and yields the disabled `cls(None)`. -/
def from_values : Option (List ℚ) → HomographyTransform
  | none => ⟨none⟩
  | some values =>
    if values.length ≠ 9 then ⟨none⟩
    else if degenerate (reshape3x3 values) then ⟨none⟩
    else ⟨some (reshape3x3 values)⟩

/-- `from_string` (lines 237-248), modelled at the token level: the input
string has been split on commas and each stripped token either parses as a
float (`some q`) or makes `float()` raise (`none`); `float()` raising
anywhere makes the whole list comprehension raise (`tokens.mapM id = none`). -/
def from_tokens (tokens : List (Option ℚ)) : HomographyTransform :=
  from_values (tokens.mapM id)

/-- `transform` (lines 250-266): identity when disabled; otherwise with
`v = M · (x, y, 1)` (so `v i = m i 0 * x + m i 1 * y + m i 2 * 1`), fall back
to `(x, y)` when `|v 2| < 1e-10`, else the perspective divide
`(v 0 / v 2, v 1 / v 2)`. -/
def transform (t : HomographyTransform) (x y : ℚ) : ℚ × ℚ :=
  match t.matrix with
  | none => (x, y)
  | some m =>
    if |m 2 0 * x + m 2 1 * y + m 2 2 * 1| < 1 / 10 ^ 10 then (x, y)
    else ((m 0 0 * x + m 0 1 * y + m 0 2 * 1) / (m 2 0 * x + m 2 1 * y + m 2 2 * 1),
          (m 1 0 * x + m 1 1 * y + m 1 2 * 1) / (m 2 0 * x + m 2 1 * y + m 2 2 * 1))

end HomographyTransform

/-! ## XThreatGrid (soccer_analysis_core.py lines 337-366)

The hardcoded 8×12 grid, stored as integer per-mille values; the float entry
is the per-mille value divided by 1000 exactly. -/

namespace XThreatGrid

/-- The hardcoded `self.grid` (lines 345-354), entries ×1000. -/
def gridN : List (List ℕ) :=
  [[5, 10, 15, 20, 30, 40, 60, 80, 120, 180, 250, 350],
   [8, 15, 20, 30, 50, 70, 100, 150, 220, 300, 400, 500],
   [10, 20, 30, 50, 80, 120, 180, 250, 350, 450, 550, 650],
   [12, 25, 40, 70, 120, 180, 250, 350, 450, 550, 650, 750],
   [12, 25, 40, 70, 120, 180, 250, 350, 450, 550, 650, 750],
   [10, 20, 30, 50, 80, 120, 180, 250, 350, 450, 550, 650],
   [8, 15, 20, 30, 50, 70, 100, 150, 220, 300, 400, 500],
   [5, 10, 15, 20, 30, 40, 60, 80, 120, 180, 250, 350]]

/-- `int(np.clip(v / (length / bins), 0, hi))`: clamp into `[0, hi]`, then
truncate. The clamped value is nonnegative, so `int` truncation is the
natural-number floor. -/
def clipIndex (v : ℚ) (cell : ℚ) (hi : ℕ) : ℕ :=
  Nat.floor (max 0 (min (v / cell) (hi : ℚ)))

/-- `get_value` (lines 357-366): `col = int(clip(x / (field_length/12), 0, 11))`,
`row = int(clip(y / (field_width/8), 0, 7))`, return `grid[row, col]`. -/
def get_value (field_length field_width : ℚ) (x y : ℚ) : ℚ :=
  let col := clipIndex x (field_length / 12) 11
  let row := clipIndex y (field_width / 8) 7
  ((gridN.getD row []).getD col 0 : ℚ) / 1000

end XThreatGrid

/-! ## AnalysisConfig (soccer_analysis_core.py lines 30-66)

The numeric fields used by the metrics and pass-detection code, with the
source's default values. -/

structure AnalysisConfig where
  max_speed_ms : ℝ := 12.5
  sprint_threshold_ms : ℝ := 7.0
  pressing_distance_m : ℝ := 3.5
  pressing_speed_threshold_ms : ℝ := 2.5
  max_frame_gap_seconds : ℝ := 0.5
  max_distance_jump_m : ℝ := 10.0
  pass_proximity_threshold_m : ℝ := 3.0
  pass_min_distance_m : ℝ := 2.0
  pass_max_distance_m : ℝ := 40.0
  pass_max_duration_s : ℝ := 3.0
  pass_velocity_threshold_ms : ℝ := 1.5

/-- The all-defaults configuration `AnalysisConfig()`. -/
noncomputable def AnalysisConfig.default : AnalysisConfig := {}

/-! ## Velocity computation (soccer_analysis_processor.py, `_compute_velocity`,
lines 705-724)

`coords` is the list of smoothed 2-D points, `timestamps` the matching list of
times. The numpy pipeline is: `dt = diff(timestamps)`; `dt[dt == 0] = 1/fps`;
`dist = norm(diff(coords))`; `valid = (dist < max_distance_jump_m) & (dt <
max_frame_gap_seconds)`; `velocity[valid] = dist/dt` (0 elsewhere);
`velocity = clip(velocity, 0, max_speed_ms)`; prepend `0.0`. -/

/-- Euclidean norm of the difference of two points (`np.linalg.norm`). -/
noncomputable def dist2d (p q : ℝ × ℝ) : ℝ :=
  Real.sqrt ((q.1 - p.1) ^ 2 + (q.2 - p.2) ^ 2)

/-- One step of `_compute_velocity` for the consecutive pair `(p, t1)`,
`(q, t2)`: the effective `dt` is `t2 - t1` with the zero case replaced by
`1/fps`; the step is `dist/dt` when the move is valid
(`dist < max_distance_jump_m` and `dt < max_frame_gap_seconds`), 0 otherwise,
then clipped into `[0, max_speed_ms]`. -/
noncomputable def velocityStep (cfg : AnalysisConfig) (fps : ℝ)
    (p q : ℝ × ℝ) (t1 t2 : ℝ) : ℝ :=
  min
    (max
      (if dist2d p q < cfg.max_distance_jump_m ∧
          (if t2 - t1 = 0 then 1 / fps else t2 - t1) < cfg.max_frame_gap_seconds
        then dist2d p q / (if t2 - t1 = 0 then 1 / fps else t2 - t1)
        else 0)
      0)
    cfg.max_speed_ms

/-- `_compute_velocity`: a 0 for the first point, then `velocityStep` on each
consecutive pair of (coordinate, timestamp) samples. -/
noncomputable def compute_velocity (cfg : AnalysisConfig) (fps : ℝ)
    (coords : List (ℝ × ℝ)) (timestamps : List ℝ) : List ℝ :=
  let samples := coords.zip timestamps
  0 :: List.zipWith (fun a b => velocityStep cfg fps a.1 b.1 a.2 b.2)
    samples samples.tail

/-! ## Pass validation (soccer_analysis_processor.py, `_validate_pass`,
lines 192-216)

`startPos` is `potential['start_pos']`, `receiverPos` the receiver's current
smoothed position, `receiverVel` its velocity. The `dist` argument of the
Python method is unused by its body and omitted here. -/

/-- `_validate_pass`: reject when the receiver displacement is below
`pass_min_distance_m` or above `pass_max_distance_m`, when the duration is
nonpositive or above `pass_max_duration_s`, or when the receiver velocity is
below 0.5; accept otherwise. -/
noncomputable def validate_pass (cfg : AnalysisConfig) (startPos receiverPos : ℝ × ℝ)
    (receiverVel : ℝ) (duration : ℝ) : Bool :=
  if dist2d startPos receiverPos < cfg.pass_min_distance_m then false
  else if cfg.pass_max_distance_m < dist2d startPos receiverPos then false
  else if duration ≤ 0 ∨ cfg.pass_max_duration_s < duration then false
  else if receiverVel < 0.5 then false
  else true

/-! ## Pressing-event deduplication (soccer_analysis_processor.py,
`_deduplicate_events`, lines 851-871) -/

/-- `PressingEvent` (soccer_analysis_core.py): the fields read by
deduplication plus the remaining payload fields. -/
structure PressingEvent where
  frame : ℕ
  timestamp : ℚ
  defender_id : ℕ
  attacker_id : ℕ
  distance : ℚ
  defender_speed : ℚ
  deriving DecidableEq, Repr

namespace PressingEvent

/-- The drop condition inside the dedup loop: same (defender, attacker) pair
as the last kept event and `event.timestamp - last.timestamp < time_window`. -/
def dropsAfter (last e : PressingEvent) (time_window : ℚ) : Prop :=
  e.defender_id = last.defender_id ∧ e.attacker_id = last.attacker_id ∧
    e.timestamp - last.timestamp < time_window

instance (last e : PressingEvent) (w : ℚ) : Decidable (dropsAfter last e w) := by
  unfold dropsAfter
  infer_instance

/-- The loop of `_deduplicate_events` after the first event has been kept:
`last` is the most recently kept event (`unique[-1]`). -/
def dedupLoop (time_window : ℚ) (last : PressingEvent) :
    List PressingEvent → List PressingEvent
  | [] => []
  | e :: es =>
    if dropsAfter last e time_window then dedupLoop time_window last es
    else e :: dedupLoop time_window e es

/-- `_deduplicate_events` with its default `time_window = 1.0`: stable sort on
`timestamp` (Python's `list.sort` is stable; `List.insertionSort` with `≤` is
its stable counterpart), keep the first event, then run the loop. -/
def deduplicate_events (events : List PressingEvent)
    (time_window : ℚ := 1) : List PressingEvent :=
  match List.insertionSort (fun a b => a.timestamp ≤ b.timestamp) events with
  | [] => []
  | e :: es => e :: dedupLoop time_window e es

end PressingEvent

/-! ## Theorems -/

/-- A track that has gone 60 frames without an update: exactly `max_age` for
the default 30 fps tracker. -/
def lostTrack : Track ℕ :=
  { track_id := 1
    box := (0, 0, 1, 1)
    score := 1
    features := []
    max_features := 100
    hits := 5
    age := 61
    time_since_update := 60 }

/-- C1 counterexample: the claim says a track whose `time_since_update`
equals `max_age` is kept across the removal step, but the filter on line 209
keeps only `time_since_update < max_age`: a track with
`time_since_update = max_age = 60` (frame rate 30) is removed. -/
theorem C1_track_at_max_age_removed :
    lostTrack.time_since_update = HybridTracker.max_age 30 ∧
      lostTrack ∉ HybridTracker.removeDead [lostTrack] (HybridTracker.max_age 30) := by
  decide

/-- C1 (amended): a track is retained across the removal step of
`HybridTracker.update` if and only if its `time_since_update` is strictly
less than `max_age`; equivalently, removal happens exactly when
`time_since_update ≥ max_age`, so a track at exactly `max_age` is removed. -/
theorem C1_removal_iff {α : Type} (tracks : List (Track α)) (maxAge : ℕ)
    (t : Track α) :
    t ∈ HybridTracker.removeDead tracks maxAge ↔
      t ∈ tracks ∧ t.time_since_update < maxAge := by
  simp [HybridTracker.removeDead, List.mem_filter]

/-- C2: `HybridTracker.update` emits a track in the returned active-results
list iff it was updated this frame (`time_since_update = 0`) and has at least
3 hits; in particular a track freshly created from an unmatched detection
(`hits = 1`) is never emitted on its creation frame. -/
theorem C2_active_results_iff {α : Type} (tracks : List (Track α)) (t : Track α) :
    (t ∈ HybridTracker.activeResults tracks ↔
      t ∈ tracks ∧ t.time_since_update = 0 ∧ 3 ≤ t.hits) ∧
    ∀ (track_id : ℕ) (box : ℚ × ℚ × ℚ × ℚ) (score : ℚ) (feature : Option α),
      Track.init track_id box score feature ∉ HybridTracker.activeResults tracks := by
  constructor
  · simp [HybridTracker.activeResults, List.mem_filter, Nat.lt_one_iff]
  · intro track_id box score feature h
    rw [HybridTracker.activeResults, List.mem_filter] at h
    have h2 := h.2
    simp [Track.init] at h2

/-- The lifecycle invariant behind C10: the feature buffer never exceeds 100
entries and `max_features` stays 100. -/
theorem track_buffer_invariant {α : Type} (t : Track α) (op : TrackOp α)
    (hlen : t.features.length ≤ 100) (hmax : t.max_features = 100) :
    (t.applyOp op).features.length ≤ 100 ∧ (t.applyOp op).max_features = 100 := by
  cases op with
  | predict => exact ⟨hlen, hmax⟩
  | update box score feature =>
    cases feature with
    | none => exact ⟨hlen, hmax⟩
    | some f =>
      simp only [Track.applyOp, Track.update]
      refine ⟨?_, hmax⟩
      by_cases h : t.max_features < (t.features ++ [f]).length
      · simp only [h, if_true]
        rw [List.length_tail, List.length_append]
        simp
        omega
      · simp only [h, if_false]
        rw [List.length_append] at h ⊢
        omega

theorem track_buffer_invariant_ops {α : Type} (ops : List (TrackOp α)) (t : Track α)
    (hlen : t.features.length ≤ 100) (hmax : t.max_features = 100) :
    (t.applyOps ops).features.length ≤ 100 ∧ (t.applyOps ops).max_features = 100 := by
  induction ops generalizing t with
  | nil => exact ⟨hlen, hmax⟩
  | cons op ops ih =>
    have h := track_buffer_invariant t op hlen hmax
    exact ih (t.applyOp op) h.1 h.2

/-- C10: after any sequence of operations on a freshly constructed track, the
appearance-feature buffer holds at most 100 entries, and an update that
appends to a full buffer evicts exactly the oldest (front) entry. -/
theorem C10_features_bounded_fifo (track_id : ℕ) (box : ℚ × ℚ × ℚ × ℚ)
    (score : ℚ) (feature : Option ℕ) (ops : List (TrackOp ℕ)) :
    ((Track.init track_id box score feature).applyOps ops).features.length ≤ 100 ∧
    ∀ (b : ℚ × ℚ × ℚ × ℚ) (s : ℚ) (f : ℕ),
      ((Track.init track_id box score feature).applyOps ops).features.length = 100 →
      (((Track.init track_id box score feature).applyOps ops).update b s (some f)).features =
        ((Track.init track_id box score feature).applyOps ops).features.tail ++ [f] := by
  have hinit : (Track.init track_id box score feature).features.length ≤ 100 ∧
      (Track.init track_id box score feature).max_features = 100 := by
    cases feature <;> simp [Track.init]
  have hinv := track_buffer_invariant_ops ops _ hinit.1 hinit.2
  refine ⟨hinv.1, ?_⟩
  intro b s f hfull
  set T := (Track.init track_id box score feature).applyOps ops
  simp only [Track.update]
  have hcond : T.max_features < (T.features ++ [f]).length := by
    rw [List.length_append, hfull, hinv.2]
    simp
  simp only [hcond, if_true]
  cases hfs : T.features with
  | nil => rw [hfs] at hfull; simp at hfull
  | cons a l => simp

/-- C5: pressing deduplication, after the stable sort by timestamp, drops an
event exactly when it shares the (defender, attacker) pair with the most
recently kept event and is strictly less than 1 second later; consequently
two same-pair events 0.5 s apart collapse to one and two same-pair events
1.5 s apart both remain. -/
theorem C5_dedup_one_second_window :
    (∀ (last e : PressingEvent) (es : List PressingEvent),
      PressingEvent.dedupLoop 1 last (e :: es) =
        if PressingEvent.dropsAfter last e 1 then PressingEvent.dedupLoop 1 last es
        else e :: PressingEvent.dedupLoop 1 e es) ∧
    (∀ e1 e2 : PressingEvent,
      e2.defender_id = e1.defender_id → e2.attacker_id = e1.attacker_id →
      e1.timestamp ≤ e2.timestamp → e2.timestamp - e1.timestamp = 1 / 2 →
      PressingEvent.deduplicate_events [e1, e2] = [e1]) ∧
    (∀ e1 e2 : PressingEvent,
      e2.defender_id = e1.defender_id → e2.attacker_id = e1.attacker_id →
      e1.timestamp ≤ e2.timestamp → e2.timestamp - e1.timestamp = 3 / 2 →
      PressingEvent.deduplicate_events [e1, e2] = [e1, e2]) := by
  refine ⟨fun last e es => rfl, fun e1 e2 hd ha hle hgap => ?_, fun e1 e2 hd ha hle hgap => ?_⟩
  · have hdrop : PressingEvent.dropsAfter e1 e2 1 := ⟨hd, ha, by rw [hgap]; norm_num⟩
    simp [PressingEvent.deduplicate_events, List.insertionSort, List.orderedInsert,
      hle, PressingEvent.dedupLoop, hdrop]
  · have hdrop : ¬ PressingEvent.dropsAfter e1 e2 1 := by
      intro h
      obtain ⟨-, -, hlt⟩ := h
      rw [hgap] at hlt
      norm_num at hlt
    simp [PressingEvent.deduplicate_events, List.insertionSort, List.orderedInsert,
      hle, PressingEvent.dedupLoop, hdrop]

/-- Any disabled transform is the identity. -/
theorem transform_of_disabled (t : HomographyTransform) (h : t.enabled = false)
    (x y : ℚ) : t.transform x y = (x, y) := by
  obtain ⟨mat⟩ := t
  cases mat with
  | none => rfl
  | some m => simp [HomographyTransform.enabled] at h

/-- C6: `transform` is total and never divides by (near-)zero: disabled ⟹
identity; enabled with `|w| < 1e-10` ⟹ the original point is returned;
otherwise `w ≠ 0` and the result is the perspective divide `(v0/w, v1/w)`. -/
theorem C6_transform_total (t : HomographyTransform) (x y : ℚ) :
    (t.matrix = none → t.transform x y = (x, y)) ∧
    ∀ m : Fin 3 → Fin 3 → ℚ, t.matrix = some m →
      (|m 2 0 * x + m 2 1 * y + m 2 2 * 1| < 1 / 10 ^ 10 →
        t.transform x y = (x, y)) ∧
      (1 / 10 ^ 10 ≤ |m 2 0 * x + m 2 1 * y + m 2 2 * 1| →
        m 2 0 * x + m 2 1 * y + m 2 2 * 1 ≠ 0 ∧
        t.transform x y =
          ((m 0 0 * x + m 0 1 * y + m 0 2 * 1) / (m 2 0 * x + m 2 1 * y + m 2 2 * 1),
           (m 1 0 * x + m 1 1 * y + m 1 2 * 1) / (m 2 0 * x + m 2 1 * y + m 2 2 * 1))) := by
  constructor
  · intro h
    unfold HomographyTransform.transform
    rw [h]
  · intro m hm
    have ht : t.transform x y =
        if |m 2 0 * x + m 2 1 * y + m 2 2 * 1| < 1 / 10 ^ 10 then (x, y)
        else ((m 0 0 * x + m 0 1 * y + m 0 2 * 1) / (m 2 0 * x + m 2 1 * y + m 2 2 * 1),
              (m 1 0 * x + m 1 1 * y + m 1 2 * 1) / (m 2 0 * x + m 2 1 * y + m 2 2 * 1)) := by
      unfold HomographyTransform.transform
      rw [hm]
    constructor
    · intro hlt
      rw [ht, if_pos hlt]
    · intro hge
      have hne : m 2 0 * x + m 2 1 * y + m 2 2 * 1 ≠ 0 := by
        intro h0
        rw [h0] at hge
        norm_num at hge
      rw [ht, if_neg (not_lt.mpr hge)]
      exact ⟨hne, rfl⟩

/-- C7: `from_string` never raises: the constructed transform is enabled iff
every token parsed, there were exactly 9 values, and the reshaped matrix is
non-degenerate; in every other case it is disabled and `transform` is the
identity. -/
theorem C7_from_tokens_enabled_iff (tokens : List (Option ℚ)) :
    ((HomographyTransform.from_tokens tokens).enabled = true ↔
      ∃ values : List ℚ, tokens.mapM id = some values ∧ values.length = 9 ∧
        ¬ HomographyTransform.degenerate (HomographyTransform.reshape3x3 values)) ∧
    ((HomographyTransform.from_tokens tokens).enabled = false →
      ∀ x y : ℚ, (HomographyTransform.from_tokens tokens).transform x y = (x, y)) := by
  refine ⟨?_, transform_of_disabled _⟩
  unfold HomographyTransform.from_tokens
  cases hm : tokens.mapM id with
  | none => simp [HomographyTransform.from_values, HomographyTransform.enabled]
  | some values =>
    by_cases h9 : values.length = 9
    · by_cases hdeg : HomographyTransform.degenerate (HomographyTransform.reshape3x3 values)
      · simp [HomographyTransform.from_values, HomographyTransform.enabled, h9, hdeg]
      · simp [HomographyTransform.from_values, HomographyTransform.enabled, h9, hdeg]
    · simp [HomographyTransform.from_values, HomographyTransform.enabled, h9]

/-- Each hardcoded grid row is non-decreasing along its 12 columns. -/
theorem gridN_row_mono_fin (r : Fin 8) (c1 c2 : Fin 12) (h : c1 ≤ c2) :
    (XThreatGrid.gridN.getD r.val []).getD c1.val 0 ≤
      (XThreatGrid.gridN.getD r.val []).getD c2.val 0 := by
  revert h
  revert r c1 c2
  decide

theorem gridN_row_mono (r c1 c2 : ℕ) (h12 : c1 ≤ c2) (h11 : c2 ≤ 11) :
    (XThreatGrid.gridN.getD r []).getD c1 0 ≤
      (XThreatGrid.gridN.getD r []).getD c2 0 := by
  by_cases hr : r < 8
  · exact gridN_row_mono_fin ⟨r, hr⟩ ⟨c1, by omega⟩ ⟨c2, by omega⟩ h12
  · have hlen : XThreatGrid.gridN.length ≤ r := by
      simp [XThreatGrid.gridN]
      omega
    rw [List.getD_eq_default _ _ hlen]
    simp

/-- The clamped index is monotone in the coordinate when the cell width is
positive. -/
theorem clipIndex_mono (c : ℚ) (hc : 0 < c) (hi : ℕ) (v1 v2 : ℚ) (h : v1 ≤ v2) :
    XThreatGrid.clipIndex v1 c hi ≤ XThreatGrid.clipIndex v2 c hi := by
  unfold XThreatGrid.clipIndex
  exact Nat.floor_le_floor
    (max_le_max le_rfl (min_le_min (by exact (div_le_div_iff_of_pos_right hc).mpr h) le_rfl))

/-- The clamped index never exceeds its upper bound. -/
theorem clipIndex_le (v c : ℚ) (hi : ℕ) : XThreatGrid.clipIndex v c hi ≤ hi := by
  unfold XThreatGrid.clipIndex
  calc Nat.floor (max 0 (min (v / c) (hi : ℚ)))
      ≤ Nat.floor ((hi : ℚ)) :=
        Nat.floor_le_floor (max_le (Nat.cast_nonneg hi) (min_le_right _ _))
    _ = hi := Nat.floor_natCast hi

/-- C8: for a positive field length, the xThreat lookup is monotone in `x`
for every fixed `y`: the grid rows are non-decreasing and the clamped column
index is non-decreasing in `x`. -/
theorem C8_xthreat_monotone (field_length field_width : ℚ) (hL : 0 < field_length)
    (y x1 x2 : ℚ) (hx : x1 ≤ x2) :
    XThreatGrid.get_value field_length field_width x1 y ≤
      XThreatGrid.get_value field_length field_width x2 y := by
  unfold XThreatGrid.get_value
  have hcell : 0 < field_length / 12 := by positivity
  have hcol := clipIndex_mono (field_length / 12) hcell 11 x1 x2 hx
  have hle := clipIndex_le x2 (field_length / 12) 11
  have hrow := gridN_row_mono (XThreatGrid.clipIndex y (field_width / 8) 7)
    (XThreatGrid.clipIndex x1 (field_length / 12) 11)
    (XThreatGrid.clipIndex x2 (field_length / 12) 11) hcol hle
  have h1000 : (0 : ℚ) < 1000 := by norm_num
  exact (div_le_div_iff_of_pos_right h1000).mpr (by exact_mod_cast hrow)

/-- C8 witness: applied on the default 105 m × 68 m pitch at `y = 0`,
`x1 = 0 ≤ x2 = 100`. -/
theorem C8_xthreat_monotone_witness :
    (0 : ℚ) < 105 ∧ (0 : ℚ) ≤ 100 ∧
      XThreatGrid.get_value 105 68 0 0 ≤ XThreatGrid.get_value 105 68 100 0 :=
  ⟨by norm_num, by norm_num,
    C8_xthreat_monotone 105 68 (by norm_num) 0 0 100 (by norm_num)⟩

/-- C9: the box → (center, scale, ratio) encoding of `Track.update_kf` and
the decoding of `Track.get_box` are mutually inverse on non-degenerate boxes
(`x1 < x2`, `y1 < y2`) over exact real arithmetic. -/
theorem C9_box_roundtrip (x1 y1 x2 y2 : ℝ) (hx : x1 < x2) (hy : y1 < y2) :
    get_box_decode (update_kf_encode (x1, y1, x2, y2)) = (x1, y1, x2, y2) := by
  have hw : (0 : ℝ) < x2 - x1 := by linarith
  have hh : (0 : ℝ) < y2 - y1 := by linarith
  unfold update_kf_encode get_box_decode
  dsimp only
  have key : (x2 - x1) * (y2 - y1) * ((x2 - x1) / (y2 - y1)) = (x2 - x1) ^ 2 := by
    field_simp
    ring
  have hsqrt : Real.sqrt ((x2 - x1) * (y2 - y1) * ((x2 - x1) / (y2 - y1))) = x2 - x1 := by
    rw [key, Real.sqrt_sq hw.le]
  rw [hsqrt]
  have hdiv : (x2 - x1) * (y2 - y1) / (x2 - x1) = y2 - y1 := by
    rw [mul_comm, mul_div_assoc, div_self hw.ne', mul_one]
  rw [hdiv]
  simp only [Prod.mk.injEq]
  refine ⟨by ring, by ring, by ring, by ring⟩

/-- C9 witness: the round trip on the concrete box `(0, 0, 2, 1)`. -/
theorem C9_box_roundtrip_witness :
    (0 : ℝ) < 2 ∧ (0 : ℝ) < 1 ∧
      get_box_decode (update_kf_encode (0, 0, 2, 1)) = (0, 0, 2, 1) :=
  ⟨by norm_num, by norm_num, C9_box_roundtrip 0 0 2 1 (by norm_num) (by norm_num)⟩

/-- Euclidean distance along the x-axis is the displacement itself. -/
theorem dist2d_on_axis (a : ℝ) (ha : 0 ≤ a) : dist2d (0, 0) (a, 0) = a := by
  show Real.sqrt ((a - 0) ^ 2 + (0 - 0) ^ 2) = a
  rw [show (a - 0) ^ 2 + (0 - 0) ^ 2 = a ^ 2 by ring, Real.sqrt_sq ha]

/-- C4: with the other validation conditions holding (displacement at most
`pass_max_distance_m` via `pass_min_distance_m ≤ pass_max_distance_m`,
positive duration within `pass_max_duration_s`, receiver moving at ≥ 0.5),
a receiver displacement exactly `pass_min_distance_m` validates, and any
displacement strictly below it is rejected. -/
theorem C4_pass_min_boundary (cfg : AnalysisConfig) (startPos receiverPos : ℝ × ℝ)
    (receiverVel duration : ℝ)
    (hminmax : cfg.pass_min_distance_m ≤ cfg.pass_max_distance_m)
    (hdur0 : 0 < duration) (hdur : duration ≤ cfg.pass_max_duration_s)
    (hvel : 0.5 ≤ receiverVel) :
    (dist2d startPos receiverPos = cfg.pass_min_distance_m →
      validate_pass cfg startPos receiverPos receiverVel duration = true) ∧
    (dist2d startPos receiverPos < cfg.pass_min_distance_m →
      validate_pass cfg startPos receiverPos receiverVel duration = false) := by
  have hdcond : ¬(duration ≤ 0 ∨ cfg.pass_max_duration_s < duration) := by
    push_neg
    exact ⟨hdur0, hdur⟩
  have hvcond : ¬(receiverVel < 0.5) := not_lt.mpr hvel
  constructor
  · intro heq
    unfold validate_pass
    rw [heq, if_neg (lt_irrefl cfg.pass_min_distance_m),
      if_neg (not_lt.mpr hminmax), if_neg hdcond, if_neg hvcond]
  · intro hlt
    unfold validate_pass
    rw [if_pos hlt]

/-- C4 witness: default configuration, receiver displaced exactly 2 m (the
default `pass_min_distance_m`), velocity 1 ≥ 0.5, duration 1 s. -/
theorem C4_pass_min_boundary_witness :
    AnalysisConfig.default.pass_min_distance_m ≤ AnalysisConfig.default.pass_max_distance_m ∧
    (0 : ℝ) < 1 ∧ (1 : ℝ) ≤ AnalysisConfig.default.pass_max_duration_s ∧
    (0.5 : ℝ) ≤ 1 ∧
    ((dist2d (0, 0) (2, 0) = AnalysisConfig.default.pass_min_distance_m →
      validate_pass AnalysisConfig.default (0, 0) (2, 0) 1 1 = true) ∧
    (dist2d (0, 0) (2, 0) < AnalysisConfig.default.pass_min_distance_m →
      validate_pass AnalysisConfig.default (0, 0) (2, 0) 1 1 = false)) :=
  ⟨by norm_num [AnalysisConfig.default], by norm_num,
    by norm_num [AnalysisConfig.default], by norm_num,
    C4_pass_min_boundary AnalysisConfig.default (0, 0) (2, 0) 1 1
      (by norm_num [AnalysisConfig.default]) (by norm_num)
      (by norm_num [AnalysisConfig.default]) (by norm_num)⟩

theorem tail_get? {α : Type} (l : List α) (n : ℕ) : l.tail.get? n = l.get? (n + 1) := by
  cases l <;> simp

/-- C3 counterexample: the claim forces velocity 0 only when the distance
strictly exceeds `max_distance_jump_m` (or the gap strictly exceeds
`max_frame_gap_seconds`). At a pair exactly 10 m apart in `dt = 0.1` s
(distance equal to, not exceeding, the default jump limit) the claim mandates
`clip(dist/dt) = 12.5`, but the code's filter `dist < max_distance_jump_m`
fails at equality and the code yields velocity 0. -/
theorem C3_boundary_counterexample :
    dist2d (0, 0) (10, 0) = AnalysisConfig.default.max_distance_jump_m ∧
    (1 / 10 : ℝ) - 0 < AnalysisConfig.default.max_frame_gap_seconds ∧
    compute_velocity AnalysisConfig.default 30 [(0, 0), (10, 0)] [0, 1 / 10] = [0, 0] ∧
    min (max (dist2d (0, 0) (10, 0) / ((1 / 10 : ℝ) - 0)) 0)
      AnalysisConfig.default.max_speed_ms ≠ 0 := by
  have h10 : dist2d (0, 0) ((10 : ℝ), 0) = 10 := dist2d_on_axis 10 (by norm_num)
  refine ⟨by rw [h10]; norm_num [AnalysisConfig.default],
    by norm_num [AnalysisConfig.default], ?_, ?_⟩
  · have hstep : velocityStep AnalysisConfig.default 30 (0, 0) (10, 0) 0 (1 / 10) = 0 := by
      unfold velocityStep
      have hcond : ¬(dist2d (0, 0) ((10 : ℝ), 0) < AnalysisConfig.default.max_distance_jump_m ∧
          (if (1 / 10 : ℝ) - 0 = 0 then 1 / 30 else (1 / 10 : ℝ) - 0) <
            AnalysisConfig.default.max_frame_gap_seconds) := by
        rw [h10]
        intro h
        have := h.1
        norm_num [AnalysisConfig.default] at this
      rw [if_neg hcond, max_self, min_eq_left (by norm_num [AnalysisConfig.default])]
    simp only [compute_velocity, List.zip, List.zipWith, List.tail]
    rw [hstep]
  · rw [h10]
    norm_num [AnalysisConfig.default]

/-- C3 (amended): `_compute_velocity` gives the first point velocity 0 and
processes each consecutive sample pair with `velocityStep`; a step is 0 when
the distance is **at or above** `max_distance_jump_m` or the effective time
gap (zero `dt` replaced by `1/fps`) is **at or above**
`max_frame_gap_seconds`, and otherwise `dist/dt` clipped into
`[0, max_speed_ms]`. -/
theorem C3_velocity_characterization (cfg : AnalysisConfig) (fps : ℝ)
    (coords : List (ℝ × ℝ)) (timestamps : List ℝ)
    (hspeed : 0 < cfg.max_speed_ms) :
    (compute_velocity cfg fps coords timestamps).head? = some 0 ∧
    (∀ (i : ℕ) (p q : ℝ × ℝ) (t1 t2 : ℝ),
      coords.get? i = some p → coords.get? (i + 1) = some q →
      timestamps.get? i = some t1 → timestamps.get? (i + 1) = some t2 →
      (compute_velocity cfg fps coords timestamps).get? (i + 1) =
        some (velocityStep cfg fps p q t1 t2)) ∧
    (∀ (p q : ℝ × ℝ) (t1 t2 : ℝ),
      (cfg.max_distance_jump_m ≤ dist2d p q ∨
        cfg.max_frame_gap_seconds ≤ (if t2 - t1 = 0 then 1 / fps else t2 - t1) →
        velocityStep cfg fps p q t1 t2 = 0) ∧
      (dist2d p q < cfg.max_distance_jump_m ∧
        (if t2 - t1 = 0 then 1 / fps else t2 - t1) < cfg.max_frame_gap_seconds →
        velocityStep cfg fps p q t1 t2 =
          min (max (dist2d p q / (if t2 - t1 = 0 then 1 / fps else t2 - t1)) 0)
            cfg.max_speed_ms)) := by
  refine ⟨rfl, ?_, ?_⟩
  · intro i p q t1 t2 hp hq ht1 ht2
    have hzip1 : (coords.zip timestamps).get? i = some (p, t1) :=
      (List.get?_zip_eq_some _ _ _ _).mpr ⟨hp, ht1⟩
    have hzip2 : (coords.zip timestamps).tail.get? i = some (q, t2) := by
      rw [tail_get? (coords.zip timestamps) i]
      exact (List.get?_zip_eq_some _ _ _ _).mpr ⟨hq, ht2⟩
    simp only [compute_velocity, List.get?_cons_succ]
    exact (List.get?_zipWith_eq_some _ _ _ _ _).mpr
      ⟨(p, t1), (q, t2), hzip1, hzip2, rfl⟩
  · intro p q t1 t2
    constructor
    · intro h
      have hcond : ¬(dist2d p q < cfg.max_distance_jump_m ∧
          (if t2 - t1 = 0 then 1 / fps else t2 - t1) < cfg.max_frame_gap_seconds) := by
        rcases h with h | h
        · exact fun hc => absurd hc.1 (not_lt.mpr h)
        · exact fun hc => absurd hc.2 (not_lt.mpr h)
      unfold velocityStep
      rw [if_neg hcond, max_self, min_eq_left hspeed.le]
    · intro h
      unfold velocityStep
      rw [if_pos h]

/-- C3 witness: the characterization applied to the default configuration at
`fps = 30` on the empty track. -/
theorem C3_velocity_characterization_witness :
    (0 : ℝ) < AnalysisConfig.default.max_speed_ms ∧
    ((compute_velocity AnalysisConfig.default 30 [] []).head? = some 0 ∧
    (∀ (i : ℕ) (p q : ℝ × ℝ) (t1 t2 : ℝ),
      ([] : List (ℝ × ℝ)).get? i = some p → ([] : List (ℝ × ℝ)).get? (i + 1) = some q →
      ([] : List ℝ).get? i = some t1 → ([] : List ℝ).get? (i + 1) = some t2 →
      (compute_velocity AnalysisConfig.default 30 [] []).get? (i + 1) =
        some (velocityStep AnalysisConfig.default 30 p q t1 t2)) ∧
    (∀ (p q : ℝ × ℝ) (t1 t2 : ℝ),
      (AnalysisConfig.default.max_distance_jump_m ≤ dist2d p q ∨
        AnalysisConfig.default.max_frame_gap_seconds ≤
          (if t2 - t1 = 0 then 1 / 30 else t2 - t1) →
        velocityStep AnalysisConfig.default 30 p q t1 t2 = 0) ∧
      (dist2d p q < AnalysisConfig.default.max_distance_jump_m ∧
        (if t2 - t1 = 0 then 1 / 30 else t2 - t1) <
          AnalysisConfig.default.max_frame_gap_seconds →
        velocityStep AnalysisConfig.default 30 p q t1 t2 =
          min (max (dist2d p q / (if t2 - t1 = 0 then 1 / 30 else t2 - t1)) 0)
            AnalysisConfig.default.max_speed_ms))) :=
  ⟨by norm_num [AnalysisConfig.default],
    C3_velocity_characterization AnalysisConfig.default 30 [] []
      (by norm_num [AnalysisConfig.default])⟩

end Tactasports
